import Mathlib

/-!
Verification of the NeLST network diagnostics and load-testing tool.

This file gives a shallow embedding, in Lean, of the pure computational
cores of the NeLST Rust sources and proves the specification's testable
properties about them.  Machine integers (`u16`, `u32`, `u64`, `usize`)
are modelled as `ℕ`, with explicit `% 2^w` reductions where the Rust
code can wrap in release builds; `f64` values that only ever hold exact
measurement data are modelled as `ℚ`, with Rust's `round`
(half-away-from-zero, applied only to non-negative arguments in this
code base) modelled by Mathlib's `round` (half-up), which agrees on
non-negative rationals; fallible code returns `Option`/`Except`.
-/

namespace NeLST

/-! ## Statistics kernel (`src/common/stats.rs`) -/

/-- `LatencyStats` from `src/common/stats.rs`: all fields in microseconds. -/
structure LatencyStats where
  min_us : ℕ
  max_us : ℕ
  avg_us : ℕ
  p50_us : ℕ
  p95_us : ℕ
  p99_us : ℕ
  deriving DecidableEq, Repr

/-- `self.samples.sort_unstable()` sorts ascending; modelled by insertion sort
(same multiset, sorted by `≤`). -/
def sortAsc (l : List ℕ) : List ℕ := l.insertionSort (· ≤ ·)

/-- The percentile index computed by `LatencyCollector::percentile`:
`((len as f64 * p as f64 / 100.0).ceil() as usize).saturating_sub(1).min(len - 1)`.
`⌈len·p/100⌉` over exact reals is `(len·p + 99) / 100` in `ℕ`;
`saturating_sub` is `ℕ` subtraction. -/
def percentileIdx (len p : ℕ) : ℕ := min ((len * p + 99) / 100 - 1) (len - 1)

/-- `LatencyCollector::percentile` (`src/common/stats.rs` lines 188–197).
It is only ever called on the already-sorted sample vector. -/
def percentile (samples : List ℕ) (p : ℕ) : ℕ :=
  if samples.isEmpty then 0
  else samples.getD (percentileIdx samples.length p) 0

/-- `LatencyCollector::compute` (`src/common/stats.rs` lines 168–186):
`None` on an empty sample vector, otherwise sort ascending and read
min/max/avg and the three percentiles off the sorted vector. -/
def compute (samples : List ℕ) : Option LatencyStats :=
  if samples.isEmpty then none
  else
    let sorted := sortAsc samples
    let len := sorted.length
    let sum := sorted.sum
    some
      { min_us := sorted.getD 0 0
        max_us := sorted.getD (len - 1) 0
        avg_us := sum / len
        p50_us := percentile sorted 50
        p95_us := percentile sorted 95
        p99_us := percentile sorted 99 }

/-! ### Helper lemmas about sorted lists -/

theorem sortAsc_sorted (l : List ℕ) : (sortAsc l).Sorted (· ≤ ·) :=
  List.sorted_insertionSort _ l

theorem sortAsc_perm (l : List ℕ) : List.Perm (sortAsc l) l :=
  List.perm_insertionSort _ l

theorem sortAsc_length (l : List ℕ) : (sortAsc l).length = l.length :=
  (sortAsc_perm l).length_eq

theorem getD_mem {α : Type} {l : List α} {n : ℕ} (h : n < l.length) (d : α) :
    l.getD n d ∈ l := by
  rw [List.getD_eq_getElem l d h]
  exact List.getElem_mem h

theorem sorted_getD_le {α : Type} [LinearOrder α] {l : List α}
    (hs : l.Sorted (· ≤ ·)) {i j : ℕ}
    (hij : i ≤ j) (hj : j < l.length) (d : α) : l.getD i d ≤ l.getD j d := by
  have hi : i < l.length := lt_of_le_of_lt hij hj
  rw [List.getD_eq_getElem l d hi, List.getD_eq_getElem l d hj]
  have h2 := hs.rel_get_of_le (a := ⟨i, hi⟩) (b := ⟨j, hj⟩)
    (Fin.mk_le_mk.mpr hij)
  simpa using h2

theorem sorted_getD_ge_of_mem {α : Type} [LinearOrder α] {l : List α}
    (hs : l.Sorted (· ≤ ·))
    (hl : l ≠ []) {x : α} (hx : x ∈ l) (d : α) :
    x ≤ l.getD (l.length - 1) d := by
  obtain ⟨i, hi, hix⟩ := List.mem_iff_getElem.mp hx
  have hlast : l.length - 1 < l.length :=
    Nat.sub_lt (List.length_pos.mpr hl) Nat.one_pos
  rw [List.getD_eq_getElem l d hlast]
  have h2 := hs.rel_get_of_le (a := ⟨i, hi⟩) (b := ⟨l.length - 1, hlast⟩)
    (Fin.mk_le_mk.mpr (Nat.le_sub_one_of_lt hi))
  simpa [hix] using h2

theorem sorted_getD_le_of_mem {α : Type} [LinearOrder α] {l : List α}
    (hs : l.Sorted (· ≤ ·))
    {x : α} (hx : x ∈ l) (d : α) : l.getD 0 d ≤ x := by
  obtain ⟨i, hi, hix⟩ := List.mem_iff_getElem.mp hx
  have h0 : 0 < l.length := lt_of_le_of_lt (Nat.zero_le i) hi
  rw [List.getD_eq_getElem l d h0]
  have h2 := hs.rel_get_of_le (a := ⟨0, h0⟩) (b := ⟨i, hi⟩)
    (Fin.mk_le_mk.mpr (Nat.zero_le i))
  simpa [hix] using h2

/-- Claim C1: `LatencyCollector::compute` returns `none` exactly when the
sample vector is empty; otherwise `min_us` is the least sample (the first
element of the ascending sort), `max_us` the greatest (the last element),
`avg_us` is `sum / len` (integer division), and each reported percentile
`p ∈ {50, 95, 99}` is the sorted element at index `⌈len·p/100⌉ − 1`
clamped to `[0, len − 1]`. -/
theorem C1_compute_spec (samples : List ℕ) :
    (compute samples = none ↔ samples = []) ∧
    (∀ st : LatencyStats, compute samples = some st →
      st.min_us ∈ samples ∧ (∀ x ∈ samples, st.min_us ≤ x) ∧
      st.max_us ∈ samples ∧ (∀ x ∈ samples, x ≤ st.max_us) ∧
      st.avg_us = samples.sum / samples.length ∧
      st.p50_us = (sortAsc samples).getD (percentileIdx samples.length 50) 0 ∧
      st.p95_us = (sortAsc samples).getD (percentileIdx samples.length 95) 0 ∧
      st.p99_us = (sortAsc samples).getD (percentileIdx samples.length 99) 0) := by
  constructor
  · constructor
    · intro h
      rcases samples with _ | ⟨a, l⟩
      · rfl
      · simp [compute] at h
    · intro h; subst h; rfl
  · intro st hst
    have hne : samples ≠ [] := by
      intro h; subst h; simp [compute] at hst
    have hse : ¬ samples.isEmpty := by simpa [List.isEmpty_iff] using hne
    simp only [compute, if_neg hse, Option.some_inj] at hst
    subst hst
    have hsne : sortAsc samples ≠ [] := by
      intro h
      have := sortAsc_length samples
      rw [h] at this
      exact hne (List.length_eq_zero.mp this.symm)
    have hpos : 0 < (sortAsc samples).length := List.length_pos.mpr hsne
    have hmem0 : (sortAsc samples).getD 0 0 ∈ samples :=
      (sortAsc_perm samples).mem_iff.mp (getD_mem hpos 0)
    have hlast : (sortAsc samples).length - 1 < (sortAsc samples).length :=
      Nat.sub_lt hpos Nat.one_pos
    have hmeml : (sortAsc samples).getD ((sortAsc samples).length - 1) 0 ∈ samples :=
      (sortAsc_perm samples).mem_iff.mp (getD_mem hlast 0)
    refine ⟨hmem0, ?_, hmeml, ?_, ?_, ?_, ?_, ?_⟩
    · intro x hx
      exact sorted_getD_le_of_mem (sortAsc_sorted samples)
        ((sortAsc_perm samples).mem_iff.mpr hx) 0
    · intro x hx
      exact sorted_getD_ge_of_mem (sortAsc_sorted samples) hsne
        ((sortAsc_perm samples).mem_iff.mpr hx) 0
    · simp [(sortAsc_perm samples).sum_eq, sortAsc_length]
    · simp [percentile, List.isEmpty_iff, hsne, sortAsc_length]
    · simp [percentile, List.isEmpty_iff, hsne, sortAsc_length]
    · simp [percentile, List.isEmpty_iff, hsne, sortAsc_length]

/-- Witness for C1 at the concrete sample vector `[3, 1, 2]`. -/
theorem C1_compute_spec_witness :
    compute [3, 1, 2] = some ⟨1, 3, 2, 2, 3, 3⟩ ∧
    (1 : ℕ) ∈ [3, 1, 2] ∧ (∀ x ∈ [3, 1, 2], (1 : ℕ) ≤ x) := by
  have h := (C1_compute_spec [3, 1, 2]).2 ⟨1, 3, 2, 2, 3, 3⟩ (by decide)
  exact ⟨by decide, h.1, h.2.1⟩

/-! ## Bench latency path (`src/bench/latency.rs`) -/

/-- `sorted.sort_by(|a, b| a.partial_cmp(b).unwrap())` on finite `f64`
samples is an ascending sort; modelled by insertion sort on `ℚ`. -/
def qsortAsc (l : List ℚ) : List ℚ := l.insertionSort (· ≤ ·)

theorem qsortAsc_sorted (l : List ℚ) : (qsortAsc l).Sorted (· ≤ ·) :=
  List.sorted_insertionSort _ l

theorem qsortAsc_perm (l : List ℚ) : List.Perm (qsortAsc l) l :=
  List.perm_insertionSort _ l

theorem qsortAsc_length (l : List ℚ) : (qsortAsc l).length = l.length :=
  (qsortAsc_perm l).length_eq

/-- Rust's `f.round() as usize`: round half away from zero, then saturating
cast.  The argument is non-negative everywhere in this code base, where
half-away-from-zero agrees with Mathlib's half-up `round`; for negative
arguments the `as usize` cast saturates at 0, matching `Int.toNat`. -/
def roundToNat (q : ℚ) : ℕ := (round q).toNat

/-- `percentile` from `src/bench/latency.rs` lines 87–97: on the sorted
sample list, `idx = (p / 100 * (len - 1)).round()`, then read
`sorted[idx.min(len - 1)]`; empty input yields `0.0`, a singleton its
unique element. -/
def bpercentile (sorted : List ℚ) (p : ℚ) : ℚ :=
  if sorted.isEmpty then 0
  else if sorted.length = 1 then sorted.getD 0 0
  else
    let idx := roundToNat (p / 100 * ((sorted.length : ℚ) - 1))
    sorted.getD (min idx (sorted.length - 1)) 0

theorem roundToNat_mono {p q : ℚ} (h : p ≤ q) : roundToNat p ≤ roundToNat q := by
  unfold roundToNat
  have : round p ≤ round q := by
    rw [round_eq, round_eq]
    exact Int.floor_le_floor (by linarith)
  exact Int.toNat_le_toNat this

theorem percentileIdx_mono (len : ℕ) {p q : ℕ} (h : p ≤ q) :
    percentileIdx len p ≤ percentileIdx len q := by
  unfold percentileIdx
  exact min_le_min
    (Nat.sub_le_sub_right
      (Nat.div_le_div_right (Nat.add_le_add_right (Nat.mul_le_mul_left len h) 99)) 1)
    le_rfl

theorem percentileIdx_lt (len p : ℕ) (hlen : 0 < len) : percentileIdx len p < len := by
  unfold percentileIdx
  exact lt_of_le_of_lt (min_le_right _ _) (Nat.sub_lt hlen Nat.one_pos)

theorem le_foldr_max_of_mem {x : ℕ} {l : List ℕ} (h : x ∈ l) (b : ℕ) :
    x ≤ l.foldr max b := by
  induction l with
  | nil => cases h
  | cons a t ih =>
    rcases List.mem_cons.mp h with rfl | ht
    · exact le_max_left _ _
    · exact le_trans (ih ht) (le_max_right _ _)

/-- Claim C5: percentile monotonicity.  For every non-empty sample set,
both the statistics kernel's ceil-based percentile
(`LatencyCollector::percentile`) and the bench latency path's round-based
percentile (`bench/latency.rs::percentile`), evaluated on the ascending
sort of the samples, satisfy `p50 ≤ p95 ≤ p99 ≤ max` of the samples. -/
theorem C5_percentile_monotonicity :
    (∀ samples : List ℕ, samples ≠ [] →
      percentile (sortAsc samples) 50 ≤ percentile (sortAsc samples) 95 ∧
      percentile (sortAsc samples) 95 ≤ percentile (sortAsc samples) 99 ∧
      ∀ m : ℕ, samples.maximum = some m → percentile (sortAsc samples) 99 ≤ m) ∧
    (∀ samples : List ℚ, samples ≠ [] →
      bpercentile (qsortAsc samples) 50 ≤ bpercentile (qsortAsc samples) 95 ∧
      bpercentile (qsortAsc samples) 95 ≤ bpercentile (qsortAsc samples) 99 ∧
      ∀ m : ℚ, samples.maximum = some m → bpercentile (qsortAsc samples) 99 ≤ m) := by
  constructor
  · intro samples hne
    set s := sortAsc samples with hs
    have hsne : s ≠ [] := by
      intro h
      have := sortAsc_length samples
      rw [← hs, h] at this
      exact hne (List.length_eq_zero.mp this.symm)
    have hse : ¬ s.isEmpty := by simpa [List.isEmpty_iff] using hsne
    have hpos : 0 < s.length := List.length_pos.mpr hsne
    have hmono : ∀ p q : ℕ, p ≤ q → percentile s p ≤ percentile s q := by
      intro p q hpq
      simp only [percentile, if_neg hse]
      exact sorted_getD_le (sortAsc_sorted samples) (percentileIdx_mono _ hpq)
        (percentileIdx_lt _ _ hpos) 0
    refine ⟨hmono 50 95 (by norm_num), hmono 95 99 (by norm_num), ?_⟩
    intro m hm
    have hmem : percentile s 99 ∈ samples := by
      simp only [percentile, if_neg hse]
      exact (sortAsc_perm samples).mem_iff.mp
        (getD_mem (percentileIdx_lt _ _ hpos) 0)
    exact List.le_maximum_of_mem hmem hm
  · intro samples hne
    set s := qsortAsc samples with hs
    have hsne : s ≠ [] := by
      intro h
      have := qsortAsc_length samples
      rw [← hs, h] at this
      exact hne (List.length_eq_zero.mp this.symm)
    have hse : ¬ s.isEmpty := by simpa [List.isEmpty_iff] using hsne
    have hpos : 0 < s.length := List.length_pos.mpr hsne
    have hmono : ∀ p q : ℚ, 0 ≤ p → p ≤ q → bpercentile s p ≤ bpercentile s q := by
      intro p q hp hpq
      simp only [bpercentile, if_neg hse]
      by_cases h1 : s.length = 1
      · simp [h1]
      · simp only [if_neg h1]
        have hlen1 : (1 : ℚ) ≤ (s.length : ℚ) := by exact_mod_cast hpos
        have harg : p / 100 * ((s.length : ℚ) - 1) ≤ q / 100 * ((s.length : ℚ) - 1) := by
          apply mul_le_mul_of_nonneg_right _ (by linarith)
          linarith
        exact sorted_getD_le (qsortAsc_sorted samples)
          (min_le_min (roundToNat_mono harg) le_rfl)
          (lt_of_le_of_lt (min_le_right _ _) (Nat.sub_lt hpos Nat.one_pos)) 0
    refine ⟨hmono 50 95 (by norm_num) (by norm_num),
            hmono 95 99 (by norm_num) (by norm_num), ?_⟩
    intro m hm
    have hmem : bpercentile s 99 ∈ samples := by
      simp only [bpercentile, if_neg hse]
      by_cases h1 : s.length = 1
      · simp only [if_pos h1]
        exact (qsortAsc_perm samples).mem_iff.mp
          (getD_mem (n := 0) (l := s) (by omega) 0)
      · simp only [if_neg h1]
        exact (qsortAsc_perm samples).mem_iff.mp
          (getD_mem (lt_of_le_of_lt (min_le_right _ _) (Nat.sub_lt hpos Nat.one_pos)) 0)
    exact List.le_maximum_of_mem hmem hm

/-- Witness for C5 at the concrete sample sets `[3, 1, 2] : List ℕ` and
`[3, 1, 2] : List ℚ`, whose maximum is `3`. -/
theorem C5_percentile_monotonicity_witness :
    (percentile (sortAsc [3, 1, 2]) 50 ≤ percentile (sortAsc [3, 1, 2]) 95 ∧
     percentile (sortAsc [3, 1, 2]) 95 ≤ percentile (sortAsc [3, 1, 2]) 99 ∧
     percentile (sortAsc [3, 1, 2]) 99 ≤ 3) ∧
    (bpercentile (qsortAsc [3, 1, 2]) 50 ≤ bpercentile (qsortAsc [3, 1, 2]) 95 ∧
     bpercentile (qsortAsc [3, 1, 2]) 95 ≤ bpercentile (qsortAsc [3, 1, 2]) 99 ∧
     bpercentile (qsortAsc [3, 1, 2]) 99 ≤ 3) := by
  have h1 := C5_percentile_monotonicity.1 [3, 1, 2] (List.cons_ne_nil _ _)
  have h2 := C5_percentile_monotonicity.2 [3, 1, 2] (List.cons_ne_nil _ _)
  have hmax : ([3, 1, 2] : List ℚ).maximum = some 3 :=
    List.maximum_eq_coe_iff.mpr ⟨by norm_num, by intro a ha; fin_cases ha <;> norm_num⟩
  exact ⟨⟨h1.1, h1.2.1, h1.2.2 3 (by decide)⟩,
         ⟨h2.1, h2.2.1, h2.2.2 3 hmax⟩⟩

/-- Q1 of `detect_outliers` (`src/bench/latency.rs` line 108):
`percentile(&sorted, 25.0)` on the ascending sort of the input. -/
def outlierQ1 (latencies : List ℚ) : ℚ := bpercentile (qsortAsc latencies) 25

/-- Q3 of `detect_outliers` (line 109): `percentile(&sorted, 75.0)`. -/
def outlierQ3 (latencies : List ℚ) : ℚ := bpercentile (qsortAsc latencies) 75

/-- `lower_bound = q1 - 1.5 * iqr` with `iqr = q3 - q1` (lines 110–111). -/
def outlierLowerBound (latencies : List ℚ) : ℚ :=
  outlierQ1 latencies - 3 / 2 * (outlierQ3 latencies - outlierQ1 latencies)

/-- `upper_bound = q3 + 1.5 * iqr` (line 112). -/
def outlierUpperBound (latencies : List ℚ) : ℚ :=
  outlierQ3 latencies + 3 / 2 * (outlierQ3 latencies - outlierQ1 latencies)

/-- `detect_outliers` from `src/bench/latency.rs` lines 100–120: fewer than 4
samples yields no outliers; otherwise Q1/Q3 come from the bench `percentile`
(round-based index) on a sorted copy, and the indices (in input order) of
samples strictly outside `[q1 - 1.5·iqr, q3 + 1.5·iqr]` are returned. -/
def detect_outliers (latencies : List ℚ) : List ℕ :=
  if latencies.length < 4 then []
  else
    (latencies.enum.filter (fun pr =>
      decide (pr.2 < outlierLowerBound latencies ∨
              outlierUpperBound latencies < pr.2))).map Prod.fst

/-- The claim's version of the outlier detector, for comparison with the
code: identical except that Q1 and Q3 are computed "with the same
percentile method as the statistics kernel", i.e. the ceil-based index
`⌈len·p/100⌉ − 1` of `LatencyCollector::percentile` instead of the bench
path's round-based index. -/
def detect_outliers_claim (latencies : List ℚ) : List ℕ :=
  if latencies.length < 4 then []
  else
    let sorted := qsortAsc latencies
    let q1 := if sorted.isEmpty then 0 else sorted.getD (percentileIdx sorted.length 25) 0
    let q3 := if sorted.isEmpty then 0 else sorted.getD (percentileIdx sorted.length 75) 0
    let iqr := q3 - q1
    (latencies.enum.filter (fun pr =>
      decide (pr.2 < q1 - 3 / 2 * iqr ∨ q3 + 3 / 2 * iqr < pr.2))).map Prod.fst

theorem roundToNat_eq (q : ℚ) (n : ℕ) (h1 : (n : ℚ) ≤ q + 1 / 2)
    (h2 : q + 1 / 2 < n + 1) : roundToNat q = n := by
  unfold roundToNat
  rw [round_eq]
  have hfl : ⌊q + 1 / 2⌋ = (n : ℤ) := by
    rw [Int.floor_eq_iff]
    constructor
    · exact_mod_cast h1
    · push_cast; exact h2
  rw [hfl]
  exact Int.toNat_natCast n

theorem sort_0_10_11_12 : qsortAsc [0, 10, 11, 12] = [0, 10, 11, 12] := by
  norm_num [qsortAsc, List.insertionSort, List.orderedInsert]

theorem round_three_quarters : roundToNat (3 / 4 : ℚ) = 1 :=
  roundToNat_eq _ 1 (by norm_num) (by norm_num)

theorem round_nine_quarters : roundToNat (9 / 4 : ℚ) = 2 :=
  roundToNat_eq _ 2 (by norm_num) (by norm_num)

theorem q1_0_10_11_12 : outlierQ1 [0, 10, 11, 12] = 10 := by
  rw [outlierQ1, sort_0_10_11_12]
  norm_num [bpercentile, round_three_quarters, List.getD_cons_succ,
    List.getD_cons_zero]

theorem q3_0_10_11_12 : outlierQ3 [0, 10, 11, 12] = 11 := by
  rw [outlierQ3, sort_0_10_11_12]
  norm_num [bpercentile, round_nine_quarters, List.getD_cons_succ,
    List.getD_cons_zero]

/-- Counterexample to claim C4 as stated: on the input `[0, 10, 11, 12]`
the code's `detect_outliers` (bench round-based Q1 = 10, Q3 = 11,
bounds `[8.5, 12.5]`) reports index 0 as an outlier, while the claim's
kernel ceil-based method (Q1 = 0, Q3 = 11, bounds `[-16.5, 27.5]`)
would report no outliers. -/
theorem C4_counterexample :
    detect_outliers [0, 10, 11, 12] = [0] ∧
    detect_outliers_claim [0, 10, 11, 12] = [] := by
  constructor
  · have hlb : outlierLowerBound [0, 10, 11, 12] = 17 / 2 := by
      rw [outlierLowerBound, q1_0_10_11_12, q3_0_10_11_12]; norm_num
    have hub : outlierUpperBound [0, 10, 11, 12] = 25 / 2 := by
      rw [outlierUpperBound, q1_0_10_11_12, q3_0_10_11_12]; norm_num
    rw [detect_outliers]
    simp only [hlb, hub]
    norm_num [List.enum, List.enumFrom, List.filter_cons, decide_eq_true_eq]
  · rw [detect_outliers_claim, sort_0_10_11_12]
    norm_num [percentileIdx, List.getD_cons_succ, List.getD_cons_zero,
      List.enum, List.enumFrom, List.filter_cons, decide_eq_true_eq]

/-- Claim C4 (amended): `detect_outliers` returns the empty index list for
every input of fewer than 4 samples; for inputs of 4 or more samples it
computes Q1 and Q3 with the bench latency percentile method (round-based
index on the sorted copy), sets IQR = Q3 − Q1, and returns, in input
order, exactly the indices of samples outside
`[Q1 − 1.5·IQR, Q3 + 1.5·IQR]`; in particular, if all samples lie inside
that interval the result is empty. -/
theorem C4_detect_outliers (l : List ℚ) :
    (l.length < 4 → detect_outliers l = []) ∧
    (4 ≤ l.length →
      detect_outliers l =
        (l.enum.filter (fun pr =>
          decide (pr.2 < outlierLowerBound l ∨
                  outlierUpperBound l < pr.2))).map Prod.fst) ∧
    ((∀ x ∈ l, outlierLowerBound l ≤ x ∧ x ≤ outlierUpperBound l) →
      detect_outliers l = []) := by
  refine ⟨?_, ?_, ?_⟩
  · intro h
    simp [detect_outliers, if_pos h]
  · intro h
    simp [detect_outliers, if_neg (not_lt.mpr h)]
  · intro hall
    by_cases h : l.length < 4
    · simp [detect_outliers, if_pos h]
    · simp only [detect_outliers, if_neg h]
      have hnil : l.enum.filter (fun pr =>
          decide (pr.2 < outlierLowerBound l ∨
                  outlierUpperBound l < pr.2)) = [] := by
        rw [List.filter_eq_nil_iff]
        refine List.forall_mem_enum.mpr ?_
        intro i hi
        have hb := hall (l[i]) (List.getElem_mem hi)
        simp only [decide_eq_true_eq]
        push_neg
        exact hb
      rw [hnil]
      rfl

/-- Witness for C4 (amended): fewer than 4 samples gives `[]`, the 4-sample
set `[10, 11, 10, 11]` (bounds `[8.5, 12.5]`) is entirely inside its IQR
fences and also gives `[]`. -/
theorem C4_detect_outliers_witness :
    detect_outliers [1, 2, 3] = [] ∧ detect_outliers [10, 11, 10, 11] = [] := by
  refine ⟨(C4_detect_outliers [1, 2, 3]).1 (by norm_num), ?_⟩
  have hs : qsortAsc [10, 11, 10, 11] = [10, 10, 11, 11] := by
    norm_num [qsortAsc, List.insertionSort, List.orderedInsert]
  have hq1 : outlierQ1 [10, 11, 10, 11] = 10 := by
    rw [outlierQ1, hs]
    norm_num [bpercentile, round_three_quarters, List.getD_cons_succ,
      List.getD_cons_zero]
  have hq3 : outlierQ3 [10, 11, 10, 11] = 11 := by
    rw [outlierQ3, hs]
    norm_num [bpercentile, round_nine_quarters, List.getD_cons_succ,
      List.getD_cons_zero]
  refine (C4_detect_outliers [10, 11, 10, 11]).2.2 ?_
  intro x hx
  rw [outlierLowerBound, outlierUpperBound, hq1, hq3]
  fin_cases hx <;> norm_num

/-! ## Error taxonomy and exit codes (`src/common/error.rs`) -/

/-- The `std::io::ErrorKind` values distinguished by `exit_status`, plus
representatives of all the others. -/
inductive IoErrorKind where
  | permissionDenied
  | timedOut
  | notFound
  | connectionRefused
  | otherKind
  deriving DecidableEq, Repr

/-- `ExitStatus` from `src/common/error.rs` lines 13–26. -/
inductive ExitStatus where
  | success
  | generalError
  | argumentError
  | connectionError
  | permissionError
  | timeoutError
  deriving DecidableEq, Repr

/-- The `#[repr(u8)]` discriminant of `ExitStatus` (0–5). -/
def ExitStatus.code : ExitStatus → ℕ
  | .success => 0
  | .generalError => 1
  | .argumentError => 2
  | .connectionError => 3
  | .permissionError => 4
  | .timeoutError => 5

/-- `NelstError` from `src/common/error.rs` lines 36–79.  The boxed
`source` payloads carry no information relevant to `exit_status` and are
dropped; an `Io` error is represented by its kind. -/
inductive NelstError where
  | argument (message : String)
  | connection (message : String)
  | permission (message : String) (hint : Option String)
  | timeout (message : String)
  | ioError (kind : IoErrorKind)
  | config (message : String)
  | scanError (message : String)
  | otherError (message : String)
  deriving DecidableEq, Repr

/-- `NelstError::exit_status` (`src/common/error.rs` lines 83–100),
including the wildcard `_ => GeneralError` arm for `Config`, `Scan` and
`Other`. -/
def exit_status : NelstError → ExitStatus
  | .argument _ => .argumentError
  | .connection _ => .connectionError
  | .permission _ _ => .permissionError
  | .timeout _ => .timeoutError
  | .ioError k =>
    if k = .permissionDenied then .permissionError
    else if k = .timedOut then .timeoutError
    else .generalError
  | _ => .generalError

/-- Claim C7: `exit_status` maps `Argument` to 2, `Connection` to 3,
`Permission` to 4, `Timeout` to 5; an `Io` error maps to 4 when its kind
is permission-denied, 5 when its kind is timed-out, and 1 otherwise; the
remaining kinds (`Config`, `Scan`, `Other`) map to 1. -/
theorem C7_exit_status (msg : String) (hint : Option String) (k : IoErrorKind) :
    (exit_status (.argument msg)).code = 2 ∧
    (exit_status (.connection msg)).code = 3 ∧
    (exit_status (.permission msg hint)).code = 4 ∧
    (exit_status (.timeout msg)).code = 5 ∧
    (exit_status (.ioError k)).code =
      (if k = .permissionDenied then 4 else if k = .timedOut then 5 else 1) ∧
    (exit_status (.config msg)).code = 1 ∧
    (exit_status (.scanError msg)).code = 1 ∧
    (exit_status (.otherError msg)).code = 1 := by
  refine ⟨rfl, rfl, rfl, rfl, ?_, rfl, rfl, rfl⟩
  cases k <;> rfl

/-! ## Load engines (`src/load/http.rs`, `src/load/connection.rs`) -/

/-- `LoadTestResult` from `src/common/stats.rs` lines 56–77. -/
structure LoadTestResult where
  target : String
  protocol : String
  duration_secs : ℚ
  total_requests : ℕ
  successful_requests : ℕ
  failed_requests : ℕ
  throughput_rps : ℚ
  bytes_sent : ℕ
  bytes_received : ℕ
  latency : Option LatencyStats

/-- The outcome of one `send_request` in an HTTP worker iteration:
either a completed round trip `(status, bytes_sent, bytes_received)`
with its measured latency, or a network-level request error. -/
inductive HttpOutcome where
  | ok (status sent received latency_us : ℕ)
  | requestError

/-- The shared counter state of `HttpTest::run`: atomic counters, the
mutex-guarded latency sample buffer and the status-code histogram. -/
structure HttpCounters where
  total : ℕ
  success : ℕ
  failed : ℕ
  bytes_sent : ℕ
  bytes_received : ℕ
  latencies : List ℕ
  status_codes : ℕ → ℕ

def HttpCounters.init : HttpCounters :=
  ⟨0, 0, 0, 0, 0, [], fun _ => 0⟩

/-- One iteration of the worker loop in `HttpTest::run`
(`src/load/http.rs` lines 170–206): `total` is always incremented; a
completed request records its byte counts, one latency sample and one
status-histogram entry, then counts as failed when `status >= 500` and as
successful otherwise; a request error counts as failed with no sample. -/
def http_step (c : HttpCounters) (o : HttpOutcome) : HttpCounters :=
  let c1 : HttpCounters := { c with total := c.total + 1 }
  match o with
  | .ok status sent received latency_us =>
    let c2 : HttpCounters :=
      { c1 with
        bytes_sent := c1.bytes_sent + sent
        bytes_received := c1.bytes_received + received
        latencies := c1.latencies ++ [latency_us]
        status_codes := fun s =>
          if s = status then c1.status_codes s + 1 else c1.status_codes s }
    if 500 ≤ status then { c2 with failed := c2.failed + 1 }
    else { c2 with success := c2.success + 1 }
  | .requestError => { c1 with failed := c1.failed + 1 }

/-- The aggregate effect of `HttpTest::run` on the shared counters, as a
fold of `http_step` over the (interleaved) iteration outcomes of all
workers. -/
def http_run (outcomes : List HttpOutcome) : HttpCounters :=
  outcomes.foldl http_step HttpCounters.init

/-- The `LoadTestResult` assembled at the end of `HttpTest::run`
(`src/load/http.rs` lines 243–252). -/
def http_result (url : String) (elapsed : ℚ) (outcomes : List HttpOutcome) :
    LoadTestResult :=
  let c := http_run outcomes
  { target := url
    protocol := "http"
    duration_secs := elapsed
    total_requests := c.total
    successful_requests := c.success
    failed_requests := c.failed
    throughput_rps := if elapsed > 0 then (c.total : ℚ) / elapsed else 0
    bytes_sent := c.bytes_sent
    bytes_received := c.bytes_received
    latency := compute c.latencies }

/-- The outcome of one spawned task of the connection engine
(`src/load/connection.rs` lines 62–91): a successful connect with its
latency, a connect error, or a timeout. -/
inductive ConnOutcome where
  | connected (latency_us : ℕ)
  | connectError
  | connectTimeout

/-- `success` and `failed` counters of the connection engine: every
joined task increments exactly one of them. -/
def conn_counts (outcomes : List ConnOutcome) : ℕ × ℕ :=
  outcomes.foldl
    (fun acc o =>
      match o with
      | .connected _ => (acc.1 + 1, acc.2)
      | .connectError => (acc.1, acc.2 + 1)
      | .connectTimeout => (acc.1, acc.2 + 1))
    (0, 0)

/-- The `LoadTestResult` assembled at the end of the connection engine's
`run` (`src/load/connection.rs` lines 126–141): `total_requests` is the
configured `count`, the success/failed counters come from the joined
tasks. -/
def connection_result (target : String) (count : ℕ) (elapsed : ℚ)
    (outcomes : List ConnOutcome) : LoadTestResult :=
  { target := target
    protocol := "tcp"
    duration_secs := elapsed
    total_requests := count
    successful_requests := (conn_counts outcomes).1
    failed_requests := (conn_counts outcomes).2
    throughput_rps := if elapsed > 0 then (count : ℚ) / elapsed else 0
    bytes_sent := 0
    bytes_received := 0
    latency := compute (outcomes.filterMap
      (fun o => match o with | .connected l => some l | _ => none)) }

theorem http_run_total (outcomes : List HttpOutcome) :
    (http_run outcomes).total =
      (http_run outcomes).success + (http_run outcomes).failed := by
  suffices h : ∀ c : HttpCounters, c.total = c.success + c.failed →
      (outcomes.foldl http_step c).total =
        (outcomes.foldl http_step c).success + (outcomes.foldl http_step c).failed by
    exact h HttpCounters.init rfl
  induction outcomes with
  | nil => intro c hc; exact hc
  | cons o t ih =>
    intro c hc
    refine ih (http_step c o) ?_
    cases o with
    | ok status sent received latency_us =>
      by_cases h5 : 500 ≤ status <;> simp [http_step, h5, hc] <;> omega
    | requestError => simp [http_step, hc]; omega

theorem conn_counts_length (outcomes : List ConnOutcome) :
    (conn_counts outcomes).1 + (conn_counts outcomes).2 = outcomes.length := by
  suffices h : ∀ p : ℕ × ℕ,
      (outcomes.foldl
        (fun acc o =>
          match o with
          | .connected _ => (acc.1 + 1, acc.2)
          | .connectError => (acc.1, acc.2 + 1)
          | .connectTimeout => (acc.1, acc.2 + 1)) p).1 +
      (outcomes.foldl
        (fun acc o =>
          match o with
          | .connected _ => (acc.1 + 1, acc.2)
          | .connectError => (acc.1, acc.2 + 1)
          | .connectTimeout => (acc.1, acc.2 + 1)) p).2
        = p.1 + p.2 + outcomes.length by
    simpa using h (0, 0)
  induction outcomes with
  | nil => intro p; simp
  | cons o t ih =>
    intro p
    cases o <;> simp [ih] <;> omega

/-- Claim C2: for every `LoadTestResult` produced by the load engines —
the HTTP duration-bounded run and the connection count-bounded run —
`total_requests = successful_requests + failed_requests`; each probe
iteration contributes exactly one to total and exactly one to either
success or failed.  For the connection engine the hypothesis
`outcomes.length = count` records that all `count` spawned tasks are
joined, each reporting one outcome. -/
theorem C2_total_requests_invariant :
    (∀ (url : String) (elapsed : ℚ) (outcomes : List HttpOutcome),
      (http_result url elapsed outcomes).total_requests =
        (http_result url elapsed outcomes).successful_requests +
        (http_result url elapsed outcomes).failed_requests) ∧
    (∀ (target : String) (count : ℕ) (elapsed : ℚ) (outcomes : List ConnOutcome),
      outcomes.length = count →
      (connection_result target count elapsed outcomes).total_requests =
        (connection_result target count elapsed outcomes).successful_requests +
        (connection_result target count elapsed outcomes).failed_requests) := by
  constructor
  · intro url elapsed outcomes
    exact http_run_total outcomes
  · intro target count elapsed outcomes hlen
    show count = (conn_counts outcomes).1 + (conn_counts outcomes).2
    rw [conn_counts_length outcomes, hlen]

/-- Witness for C2 at a concrete HTTP outcome list (one 200, one 503, one
error) and a concrete 3-task connection run. -/
theorem C2_total_requests_invariant_witness :
    (http_result "http://x/" 1 [.ok 200 10 20 5, .ok 503 10 20 7, .requestError]).total_requests
      = (http_result "http://x/" 1 [.ok 200 10 20 5, .ok 503 10 20 7, .requestError]).successful_requests
      + (http_result "http://x/" 1 [.ok 200 10 20 5, .ok 503 10 20 7, .requestError]).failed_requests ∧
    (connection_result "127.0.0.1:1" 3 1 [.connectError, .connectTimeout, .connected 5]).total_requests
      = (connection_result "127.0.0.1:1" 3 1 [.connectError, .connectTimeout, .connected 5]).successful_requests
      + (connection_result "127.0.0.1:1" 3 1 [.connectError, .connectTimeout, .connected 5]).failed_requests :=
  ⟨C2_total_requests_invariant.1 "http://x/" 1 _,
   C2_total_requests_invariant.2 "127.0.0.1:1" 3 1 _ rfl⟩

/-- Claim C9: in the HTTP load engine, a completed request with
`status >= 500` is counted as failed but still contributes a latency
sample and a status-histogram entry; a completed request with
`status < 500` is counted as successful (and also contributes both); a
network-level request error is counted as failed with no latency sample.
In all three cases `total` is incremented by one. -/
theorem C9_http_classification :
    (∀ (c : HttpCounters) (status sent received lat : ℕ), 500 ≤ status →
      (http_step c (.ok status sent received lat)).failed = c.failed + 1 ∧
      (http_step c (.ok status sent received lat)).success = c.success ∧
      (http_step c (.ok status sent received lat)).latencies = c.latencies ++ [lat] ∧
      (http_step c (.ok status sent received lat)).status_codes status =
        c.status_codes status + 1 ∧
      (http_step c (.ok status sent received lat)).total = c.total + 1) ∧
    (∀ (c : HttpCounters) (status sent received lat : ℕ), status < 500 →
      (http_step c (.ok status sent received lat)).success = c.success + 1 ∧
      (http_step c (.ok status sent received lat)).failed = c.failed ∧
      (http_step c (.ok status sent received lat)).latencies = c.latencies ++ [lat] ∧
      (http_step c (.ok status sent received lat)).status_codes status =
        c.status_codes status + 1 ∧
      (http_step c (.ok status sent received lat)).total = c.total + 1) ∧
    (∀ c : HttpCounters,
      (http_step c .requestError).failed = c.failed + 1 ∧
      (http_step c .requestError).success = c.success ∧
      (http_step c .requestError).latencies = c.latencies ∧
      (http_step c .requestError).total = c.total + 1) := by
  refine ⟨?_, ?_, ?_⟩
  · intro c status sent received lat h5
    simp [http_step, if_pos h5]
  · intro c status sent received lat h5
    simp [http_step, if_neg (not_le.mpr h5)]
  · intro c
    simp [http_step]

/-- Witness for C9 at `status = 503` (failed, sampled), `status = 200`
(successful, sampled) and a request error (failed, unsampled), from the
initial counter state. -/
theorem C9_http_classification_witness :
    ((http_step HttpCounters.init (.ok 503 1 2 7)).failed = 1 ∧
     (http_step HttpCounters.init (.ok 503 1 2 7)).latencies = [7] ∧
     (http_step HttpCounters.init (.ok 503 1 2 7)).status_codes 503 = 1) ∧
    ((http_step HttpCounters.init (.ok 200 1 2 7)).success = 1 ∧
     (http_step HttpCounters.init (.ok 200 1 2 7)).failed = 0) ∧
    ((http_step HttpCounters.init .requestError).failed = 1 ∧
     (http_step HttpCounters.init .requestError).latencies = []) := by
  have h1 := C9_http_classification.1 HttpCounters.init 503 1 2 7 (by norm_num)
  have h2 := C9_http_classification.2.1 HttpCounters.init 200 1 2 7 (by norm_num)
  have h3 := C9_http_classification.2.2 HttpCounters.init
  exact ⟨⟨h1.1, h1.2.2.1, h1.2.2.2.1⟩, ⟨h2.1, h2.2.1⟩, ⟨h3.1, h3.2.2.1⟩⟩

/-! ## Scan engines (`src/scan/tcp_connect.rs`, `src/scan/udp.rs`) -/

/-- `PortState` from `src/scan/tcp_connect.rs`. -/
inductive PortState where
  | Open
  | Closed
  | Filtered
  deriving DecidableEq, Repr

/-- `PortResult` from `src/scan/tcp_connect.rs`. -/
structure PortResult where
  port : ℕ
  state : PortState
  service : Option String
  deriving DecidableEq, Repr

/-- `ScanSummary` from `src/scan/tcp_connect.rs`. -/
structure ScanSummary where
  total_scanned : ℕ
  «open» : ℕ
  closed : ℕ
  filtered : ℕ
  deriving DecidableEq, Repr

/-- `ScanResult` from `src/scan/tcp_connect.rs`. -/
structure ScanResult where
  target : String
  method : String
  scan_time : String
  duration_secs : ℚ
  ports : List PortResult
  summary : ScanSummary

/-- The `PortResult` one TCP-Connect task pushes for `port`
(`src/scan/tcp_connect.rs` lines 153–173): the state from `scan_port`,
with a service label looked up only for open ports. -/
def tcp_result_of (scan_port : ℕ → PortState) (get_service_name : ℕ → Option String)
    (port : ℕ) : PortResult :=
  { port := port
    state := scan_port port
    service := if scan_port port = PortState.Open then get_service_name port
               else none }

/-- The TCP-Connect scan `run` (`src/scan/tcp_connect.rs` lines 125–205):
one task per parsed port pushes exactly one `PortResult` (the network
outcome is abstracted as the oracle `scan_port`); results are then sorted
by port, the three states are counted, and `total_scanned` is the number
of parsed ports.  Tasks finish in arbitrary order; the list the tasks
build is modelled in spawn order, which the sort and the counts are
insensitive to. -/
def tcp_connect_run (target scan_time : String) (elapsed : ℚ) (ports : List ℕ)
    (scan_port : ℕ → PortState) (get_service_name : ℕ → Option String) :
    ScanResult :=
  let total_ports := ports.length
  let results := ports.map (tcp_result_of scan_port get_service_name)
  let port_results := results.insertionSort (fun a b => a.port ≤ b.port)
  { target := target
    method := "tcp-connect"
    scan_time := scan_time
    duration_secs := elapsed
    ports := port_results
    summary :=
      { total_scanned := total_ports
        «open» := (port_results.filter (fun r => decide (r.state = PortState.Open))).length
        closed := (port_results.filter (fun r => decide (r.state = PortState.Closed))).length
        filtered := (port_results.filter (fun r => decide (r.state = PortState.Filtered))).length } }

/-- One iteration of the aggregation loop of the UDP scan `run`
(`src/scan/udp.rs` lines 87–111): classify the port (`Closed` when an
ICMP unreachable was recorded for it, `Open` otherwise), bump the
matching counter, push one `PortResult`. -/
def udp_step (closedSet : ℕ → Bool) (svc : ℕ → Option String)
    (acc : List PortResult × ℕ × ℕ × ℕ) (port : ℕ) :
    List PortResult × ℕ × ℕ × ℕ :=
  let state := if closedSet port then PortState.Closed else PortState.Open
  let counters : ℕ × ℕ × ℕ :=
    match state with
    | PortState.Open => (acc.2.1 + 1, acc.2.2.1, acc.2.2.2)
    | PortState.Closed => (acc.2.1, acc.2.2.1 + 1, acc.2.2.2)
    | PortState.Filtered => (acc.2.1, acc.2.2.1, acc.2.2.2 + 1)
  (acc.1 ++ [{ port := port
               state := state
               service := if state = PortState.Open then svc port else none }],
   counters)

/-- The UDP scan `run` (`src/scan/udp.rs` lines 19–128): the network phase
only records which ports got an ICMP port-unreachable (the `closedSet`
oracle; always empty in the shipped simplified implementation), then the
aggregation loop above runs over the parsed ports. -/
def udp_run (target scan_time : String) (elapsed : ℚ) (ports : List ℕ)
    (closedSet : ℕ → Bool) (svc : ℕ → Option String) : ScanResult :=
  let total_ports := ports.length
  let c := ports.foldl (udp_step closedSet svc) ([], 0, 0, 0)
  { target := target
    method := "UDP"
    scan_time := scan_time
    duration_secs := elapsed
    ports := c.1
    summary :=
      { total_scanned := total_ports
        «open» := c.2.1
        closed := c.2.2.1
        filtered := c.2.2.2 } }

theorem portstate_filter_partition (rl : List PortResult) :
    (rl.filter (fun r => decide (r.state = PortState.Open))).length +
    (rl.filter (fun r => decide (r.state = PortState.Closed))).length +
    (rl.filter (fun r => decide (r.state = PortState.Filtered))).length
      = rl.length := by
  induction rl with
  | nil => rfl
  | cons a t ih =>
    cases h : a.state <;> simp [List.filter_cons, h] <;> omega

theorem udp_fold_invariant (closedSet : ℕ → Bool) (svc : ℕ → Option String)
    (ports : List ℕ) :
    ∀ acc : List PortResult × ℕ × ℕ × ℕ,
      (ports.foldl (udp_step closedSet svc) acc).1.length
          = acc.1.length + ports.length ∧
      (ports.foldl (udp_step closedSet svc) acc).2.1 +
      (ports.foldl (udp_step closedSet svc) acc).2.2.1 +
      (ports.foldl (udp_step closedSet svc) acc).2.2.2
          = acc.2.1 + acc.2.2.1 + acc.2.2.2 + ports.length := by
  induction ports with
  | nil => intro acc; simp
  | cons p t ih =>
    intro acc
    have h := ih (udp_step closedSet svc acc p)
    by_cases hc : closedSet p <;>
      simp only [List.foldl_cons] at h ⊢ <;>
      simp [udp_step, hc] at h ⊢ <;> omega

/-- Claim C3: for every `ScanResult` produced by the TCP-Connect and UDP
scan engines, `|ports| = summary.total_scanned = open + closed + filtered`. -/
theorem C3_scan_result_invariant :
    (∀ (target scan_time : String) (elapsed : ℚ) (ports : List ℕ)
       (scan_port : ℕ → PortState) (svc : ℕ → Option String),
      (tcp_connect_run target scan_time elapsed ports scan_port svc).ports.length
        = (tcp_connect_run target scan_time elapsed ports scan_port svc).summary.total_scanned ∧
      (tcp_connect_run target scan_time elapsed ports scan_port svc).summary.total_scanned
        = (tcp_connect_run target scan_time elapsed ports scan_port svc).summary.«open»
        + (tcp_connect_run target scan_time elapsed ports scan_port svc).summary.closed
        + (tcp_connect_run target scan_time elapsed ports scan_port svc).summary.filtered) ∧
    (∀ (target scan_time : String) (elapsed : ℚ) (ports : List ℕ)
       (closedSet : ℕ → Bool) (svc : ℕ → Option String),
      (udp_run target scan_time elapsed ports closedSet svc).ports.length
        = (udp_run target scan_time elapsed ports closedSet svc).summary.total_scanned ∧
      (udp_run target scan_time elapsed ports closedSet svc).summary.total_scanned
        = (udp_run target scan_time elapsed ports closedSet svc).summary.«open»
        + (udp_run target scan_time elapsed ports closedSet svc).summary.closed
        + (udp_run target scan_time elapsed ports closedSet svc).summary.filtered) := by
  constructor
  · intro target scan_time elapsed ports scan_port svc
    have hperm : List.Perm
        ((ports.map (tcp_result_of scan_port svc)).insertionSort
          (fun a b => a.port ≤ b.port))
        (ports.map (tcp_result_of scan_port svc)) :=
      List.perm_insertionSort _ _
    have hlen : ((ports.map (tcp_result_of scan_port svc)).insertionSort
        (fun a b => a.port ≤ b.port)).length = ports.length := by
      rw [hperm.length_eq, List.length_map]
    constructor
    · simp only [tcp_connect_run]
      exact hlen
    · simp only [tcp_connect_run]
      have h := portstate_filter_partition
        ((ports.map (tcp_result_of scan_port svc)).insertionSort
          (fun a b => a.port ≤ b.port))
      rw [hlen] at h
      exact h.symm
  · intro target scan_time elapsed ports closedSet svc
    have h := udp_fold_invariant closedSet svc ports ([], 0, 0, 0)
    simp only [List.length_nil, Nat.zero_add] at h
    constructor
    · simp only [udp_run]
      exact h.1
    · simp only [udp_run]
      omega

/-! ## Port-range parser (`src/cli/scan.rs` lines 82–115)

Rust `&str` values are modelled as `List Char` (the character data of the
string), so that the splitting/trimming primitives are structural and
every claim instance evaluates inside the kernel. -/

/-- Rust `str::split(sep)`: splits on every occurrence of `sep`; the
empty string yields `[""]`, adjacent separators yield empty pieces. -/
def splitChar (sep : Char) : List Char → List (List Char)
  | [] => [[]]
  | c :: cs =>
    if c = sep then [] :: splitChar sep cs
    else
      match splitChar sep cs with
      | [] => [[c]]
      | t :: ts => (c :: t) :: ts

/-- Rust `str::trim`: drop whitespace from both ends. -/
def trimChars (cs : List Char) : List Char :=
  ((cs.dropWhile Char.isWhitespace).reverse.dropWhile Char.isWhitespace).reverse

/-- Rust `str::parse::<u16>()`: an optional leading `+`, then one or more
ASCII digits, value at most `u16::MAX = 65535`; anything else is a parse
error. -/
def parseU16 (s : List Char) : Option ℕ :=
  let ds := match s with
    | '+' :: rest => rest
    | cs => cs
  if ds.isEmpty then none
  else if ds.all Char.isDigit then
    let v := ds.foldl (fun acc c => acc * 10 + (c.toNat - 48)) 0
    if v ≤ 65535 then some v else none
  else none

/-- The loop body of `parse_ports` (`src/cli/scan.rs` lines 85–112) over
the comma-separated pieces, carrying the accumulated `result` vector:
a trimmed piece containing `-` must split into exactly two parseable
port numbers `start ≤ end` and contributes the inclusive range; any other
piece must parse as a single port. -/
def parse_ports_go : List (List Char) → List ℕ → Except (List Char) (List ℕ)
  | [], acc => .ok acc
  | piece :: rest, acc =>
    let part := trimChars piece
    if part.contains '-' then
      match splitChar '-' part with
      | [a, b] =>
        match parseU16 (trimChars a) with
        | none => .error ("Invalid port number: ".toList ++ a)
        | some start =>
          match parseU16 (trimChars b) with
          | none => .error ("Invalid port number: ".toList ++ b)
          | some stop =>
            if stop < start then
              .error ("Invalid port range: ".toList ++ (toString start).toList
                ++ " > ".toList ++ (toString stop).toList)
            else parse_ports_go rest (acc ++ List.range' start (stop - start + 1))
      | _ => .error ("Invalid port range: ".toList ++ part)
    else
      match parseU16 part with
      | none => .error ("Invalid port number: ".toList ++ part)
      | some port => parse_ports_go rest (acc ++ [port])

/-- `parse_ports` from `src/cli/scan.rs` lines 82–115. -/
def parse_ports (ports_str : List Char) : Except (List Char) (List ℕ) :=
  parse_ports_go (splitChar ',' ports_str) []

/-- Claim C6: `parse_ports "1-1024"` yields the inclusive 1024-element
sequence `1..=1024`; `parse_ports "22,80,443"` yields `[22, 80, 443]`;
`parse_ports "22,80-82,443"` yields `[22, 80, 81, 82, 443]`; the reversed
range `"100-50"` is rejected as an error (which the caller maps to an
argument error); and whitespace around tokens is tolerated: the padded
input gives the same result as the unpadded one. -/
theorem C6_parse_ports :
    parse_ports "1-1024".toList = .ok (List.range' 1 1024) ∧
    parse_ports "22,80,443".toList = .ok [22, 80, 443] ∧
    parse_ports "22,80-82,443".toList = .ok [22, 80, 81, 82, 443] ∧
    (∃ msg, parse_ports "100-50".toList = .error msg) ∧
    parse_ports " 22 , 80 , 443 ".toList = parse_ports "22,80,443".toList := by
  exact ⟨by rfl, by rfl, by rfl,
    ⟨"Invalid port range: 100 > 50".toList, by rfl⟩, by rfl⟩

/-! ## Path-MTU binary search (`src/diag/mtu.rs` lines 207–295)

`probe_mtu` is abstracted as an oracle `probe : ℕ → Option ℚ` returning
the round-trip time on success and `none` on failure (`EMSGSIZE`, no
reply, or a zero payload after the 28-byte overhead subtraction).
`low`, `high`, `mid` and the MTU sizes are `u16`: in a release build
`low + high` and the loop guard's `high - 1` wrap modulo `2^16`
(a debug build panics on the overflowing addition instead), so the
arithmetic is modelled with explicit `% 65536` reductions.  Because the
wrap can make the loop state stop changing, the loop need not terminate;
it is modelled with an iteration budget, `none` standing for a run that
is still looping after `fuel` iterations. -/

/-- `MtuProbe` from `src/diag/mtu.rs`. -/
structure MtuProbe where
  mtu_size : ℕ
  success : Bool
  rtt_ms : Option ℚ
  deriving DecidableEq, Repr

/-- The `while low < high - 1` loop of `binary_search_mtu`
(`src/diag/mtu.rs` lines 261–292) under release-build `u16` semantics:
the guard compares `low` with `(high + 65535) % 65536` (`high - 1` with
wrap-around) and `mid = ((low + high) % 65536) / 2` (the sum wraps);
on success set `result_mtu = mid, low = mid`, on failure set
`high = mid`; on exit return the final `result_mtu` and the probes
recorded by the loop. -/
def binary_search_go (probe : ℕ → Option ℚ) :
    ℕ → ℕ → ℕ → ℕ → Option (ℕ × List MtuProbe)
  | 0, _, _, _ => none
  | fuel + 1, low, high, result_mtu =>
    if low < (high + 65535) % 65536 then
      match probe (((low + high) % 65536) / 2) with
      | some rtt =>
        match binary_search_go probe fuel (((low + high) % 65536) / 2) high
            (((low + high) % 65536) / 2) with
        | none => none
        | some r =>
          some (r.1, ⟨((low + high) % 65536) / 2, true, some rtt⟩ :: r.2)
      | none =>
        match binary_search_go probe fuel low (((low + high) % 65536) / 2)
            result_mtu with
        | none => none
        | some r =>
          some (r.1, ⟨((low + high) % 65536) / 2, false, none⟩ :: r.2)
    else some (result_mtu, [])

/-- `binary_search_mtu` (`src/diag/mtu.rs` lines 207–295): probe
`max_mtu` first and return it immediately on success; then probe
`min_mtu` and return it immediately on failure; otherwise run the
halving loop started at `low = min_mtu, high = max_mtu,
result_mtu = min_mtu`. -/
def binary_search_mtu (probe : ℕ → Option ℚ) (min_mtu max_mtu fuel : ℕ) :
    Option (ℕ × List MtuProbe) :=
  match probe max_mtu with
  | some rtt => some (max_mtu, [⟨max_mtu, true, some rtt⟩])
  | none =>
    match probe min_mtu with
    | none => some (min_mtu, [⟨max_mtu, false, none⟩, ⟨min_mtu, false, none⟩])
    | some rtt =>
      match binary_search_go probe fuel min_mtu max_mtu min_mtu with
      | none => none
      | some r =>
        some (r.1, ⟨max_mtu, false, none⟩ :: ⟨min_mtu, true, some rtt⟩ :: r.2)

/-- The sizes of the successful probes in a probe log. -/
def successSizes (l : List MtuProbe) : List ℕ :=
  (l.filter (fun pr => pr.success)).map (fun pr => pr.mtu_size)

/-- Claim C8, evaluated at a failing input.  `min_mtu` and `max_mtu` are
unvalidated `u16` CLI flags (`src/cli/diag.rs` lines 158–164) passed
straight to `binary_search_mtu`.  With `--min-mtu 68 --max-mtu 65535` on
an ordinary IPv4 path that carries packets up to 1500 bytes (the oracle
succeeds for sizes in `(28, 1500]`: at most 28 bytes of overhead are
subtracted and a zero payload fails locally), the release build probes
65535 (fail), 68 (success), then wraps: `mid = (68 + 65535) mod 2^16 / 2
= 33` (success, `result_mtu = 33`), `mid = (33 + 65535) mod 2^16 / 2 =
16` (fail), and the guard `33 < (16 - 1)` exits the loop.  It returns
`path_mtu = 33` even though its own probe log records 68 as the largest
successful size — not "the largest successfully probed size" of the
claim, which describes the intended exact `mid = (low + high) / 2`
search. -/
theorem C8_mtu_wrap_bug :
    binary_search_mtu
        (fun n => if 28 < n ∧ n ≤ 1500 then some 1 else none) 68 65535 100 =
      some (33, [⟨65535, false, none⟩, ⟨68, true, some 1⟩,
                 ⟨33, true, some 1⟩, ⟨16, false, none⟩]) ∧
    (successSizes [⟨65535, false, none⟩, ⟨68, true, some 1⟩,
                   ⟨33, true, some 1⟩, ⟨16, false, none⟩]).foldl
        (fun a b => max a b) 0 = 68 ∧
    (33 : ℕ) ≠ 68 := by
  refine ⟨rfl, by decide, by decide⟩
/-! ## One's-complement checksums (`src/diag/mtu.rs` lines 186–204,
`src/scan/raw_socket.rs` lines 84–113)

Bytes are `ℕ` values below 256; `sum` is a `u32` accumulator, reduced
`% 2^32` at each addition as in a release build.  Partial indexing is
modelled with `Option`: a `none` marks the out-of-bounds panic. -/

/-- The 16-bit pair-summing loop shared by `calculate_icmp_checksum` and
`tcp_checksum`:
`while i < data.len() - 1 { sum += (data[i] << 8) | data[i+1]; i += 2 }`.
The caller passes the loop bound `data.len() - 1` as computed on `usize`:
for the empty slice it wraps to `2^64 - 1`, so the loop is entered and the
first index access is out of bounds — a panic in Rust, `none` here.
Returns the final `i` and `sum` on normal exit. -/
def checksum_loop (data : List ℕ) (bound i sum : ℕ) : Option (ℕ × ℕ) :=
  if _h : i < bound then
    match data.get? i, data.get? (i + 1) with
    | some a, some b =>
      checksum_loop data bound (i + 2) ((sum + (a <<< 8 ||| b)) % 4294967296)
    | _, _ => none
  else some (i, sum)
termination_by bound - i

/-- The end-around carry loop:
`while (sum >> 16) != 0 { sum = (sum & 0xffff) + (sum >> 16) }`
(`>> 16` is `/ 65536` and `& 0xffff` is `% 65536` on `ℕ`). -/
def carry_fold (sum : ℕ) : ℕ :=
  if _h : sum / 65536 ≠ 0 then carry_fold (sum % 65536 + sum / 65536) else sum
termination_by sum
decreasing_by omega

/-- The common tail of both checksum functions: add the trailing odd byte
(`if i < data.len() { sum += data[i] << 8 }`), fold the carries, then
`!sum as u16` — the `u32` complement `2^32 - 1 - sum` truncated to 16
bits. -/
def checksum_finish (data : List ℕ) (i sum : ℕ) : ℕ :=
  let sum2 :=
    if hi : i < data.length then (sum + (data.get ⟨i, hi⟩ <<< 8)) % 4294967296
    else sum
  (4294967295 - carry_fold sum2) % 65536

/-- `calculate_icmp_checksum` from `src/diag/mtu.rs` lines 186–204. -/
def calculate_icmp_checksum (data : List ℕ) : Option ℕ :=
  match checksum_loop data
      (if data.length = 0 then 18446744073709551615 else data.length - 1) 0 0 with
  | none => none
  | some (i, sum) => some (checksum_finish data i sum)

/-- An IPv4 address as its four octets. -/
structure Ipv4Addr where
  o0 : ℕ
  o1 : ℕ
  o2 : ℕ
  o3 : ℕ
  deriving DecidableEq, Repr

/-- The IPv4 pseudo-header accumulation of `tcp_checksum`
(`src/scan/raw_socket.rs` lines 87–95): source and destination octet
pairs (`u16::from_be_bytes([a, b])` is `a <<< 8 ||| b`), the protocol
number 6 and the TCP segment length, each added into the `u32`
accumulator. -/
def tcp_pseudo_sum (source dest : Ipv4Addr) (len : ℕ) : ℕ :=
  let s1 := (0 + (source.o0 <<< 8 ||| source.o1)) % 4294967296
  let s2 := (s1 + (source.o2 <<< 8 ||| source.o3)) % 4294967296
  let s3 := (s2 + (dest.o0 <<< 8 ||| dest.o1)) % 4294967296
  let s4 := (s3 + (dest.o2 <<< 8 ||| dest.o3)) % 4294967296
  let s5 := (s4 + 6) % 4294967296
  (s5 + len % 4294967296) % 4294967296

/-- `tcp_checksum` from `src/scan/raw_socket.rs` lines 84–113: the
pseudo-header sum first, then the same pair loop, odd-byte step, carry
fold and complement over the TCP packet bytes. -/
def tcp_checksum (source dest : Ipv4Addr) (tcp_packet : List ℕ) : Option ℕ :=
  match checksum_loop tcp_packet
      (if tcp_packet.length = 0 then 18446744073709551615
       else tcp_packet.length - 1) 0
      (tcp_pseudo_sum source dest tcp_packet.length) with
  | none => none
  | some (i, sum) => some (checksum_finish tcp_packet i sum)

theorem checksum_loop_isSome (data : List ℕ) (bound : ℕ)
    (hb : bound < data.length) :
    ∀ (fuel i sum : ℕ), bound - i ≤ fuel →
      ∃ j s, checksum_loop data bound i sum = some (j, s) := by
  intro fuel
  induction fuel with
  | zero =>
    intro i sum hf
    rw [checksum_loop, dif_neg (by omega)]
    exact ⟨i, sum, rfl⟩
  | succ n ih =>
    intro i sum hf
    by_cases h : i < bound
    · rw [checksum_loop, dif_pos h]
      have hi : i < data.length := by omega
      have hi1 : i + 1 < data.length := by omega
      rw [List.get?_eq_get hi, List.get?_eq_get hi1]
      exact ih (i + 2) _ (by omega)
    · rw [checksum_loop, dif_neg h]
      exact ⟨i, sum, rfl⟩

theorem checksum_loop_nil (bound sum : ℕ) (hb : 0 < bound) :
    checksum_loop [] bound 0 sum = none := by
  rw [checksum_loop, dif_pos hb]
  rfl

theorem checksum_finish_lt (data : List ℕ) (i sum : ℕ) :
    checksum_finish data i sum < 65536 :=
  Nat.mod_lt _ (by norm_num)

/-- Claim C10: the checksum helpers are total exactly on non-empty input.
For every byte slice of length at least 1 both `calculate_icmp_checksum`
and `tcp_checksum` return a `u16` checksum (a value below `2^16`) without
panicking; on the empty slice the loop guard `i < data.len() - 1` wraps
on the unsigned length and the first index access panics (modelled as
`none`). -/
theorem C10_checksum_totality :
    (∀ data : List ℕ, data ≠ [] →
      ∃ c, calculate_icmp_checksum data = some c ∧ c < 65536) ∧
    calculate_icmp_checksum [] = none ∧
    (∀ (source dest : Ipv4Addr) (tcp_packet : List ℕ), tcp_packet ≠ [] →
      ∃ c, tcp_checksum source dest tcp_packet = some c ∧ c < 65536) ∧
    (∀ source dest : Ipv4Addr, tcp_checksum source dest [] = none) := by
  refine ⟨?_, ?_, ?_, ?_⟩
  · intro data hne
    have hlen : data.length ≠ 0 := fun h => hne (List.length_eq_zero.mp h)
    have hb : data.length - 1 < data.length := by omega
    obtain ⟨j, s, hjs⟩ := checksum_loop_isSome data (data.length - 1) hb
      (data.length - 1) 0 0 le_rfl
    refine ⟨checksum_finish data j s, ?_, checksum_finish_lt data j s⟩
    rw [calculate_icmp_checksum, if_neg hlen, hjs]
  · have hnil : checksum_loop [] 18446744073709551615 0 0 = none :=
      checksum_loop_nil _ _ (by norm_num)
    rw [calculate_icmp_checksum]
    simp only [List.length_nil, eq_self_iff_true, ite_true, hnil]
  · intro source dest tcp_packet hne
    have hlen : tcp_packet.length ≠ 0 := fun h => hne (List.length_eq_zero.mp h)
    have hb : tcp_packet.length - 1 < tcp_packet.length := by omega
    obtain ⟨j, s, hjs⟩ := checksum_loop_isSome tcp_packet (tcp_packet.length - 1)
      hb (tcp_packet.length - 1) 0
      (tcp_pseudo_sum source dest tcp_packet.length) le_rfl
    refine ⟨checksum_finish tcp_packet j s, ?_, checksum_finish_lt tcp_packet j s⟩
    rw [tcp_checksum, if_neg hlen, hjs]
  · intro source dest
    have hnil : checksum_loop [] 18446744073709551615 0
        (tcp_pseudo_sum source dest 0) = none :=
      checksum_loop_nil _ _ (by norm_num)
    rw [tcp_checksum]
    simp only [List.length_nil, eq_self_iff_true, ite_true, hnil]

/-- Witness for C10: an 8-byte all-zero ICMP header and a 20-byte
all-zero TCP header between `10.0.0.1` and `10.0.0.2` both get a defined
checksum. -/
theorem C10_checksum_totality_witness :
    (calculate_icmp_checksum [0, 0, 0, 0, 0, 0, 0, 0]).isSome = true ∧
    (tcp_checksum ⟨10, 0, 0, 1⟩ ⟨10, 0, 0, 2⟩
      [0, 0, 0, 0, 0, 0, 0, 0, 0, 0, 0, 0, 0, 0, 0, 0, 0, 0, 0, 0]).isSome = true := by
  constructor
  · obtain ⟨c, hc, hlt⟩ := C10_checksum_totality.1 [0, 0, 0, 0, 0, 0, 0, 0]
      (List.cons_ne_nil _ _)
    rw [hc]
    rfl
  · obtain ⟨c, hc, hlt⟩ := C10_checksum_totality.2.2.1 ⟨10, 0, 0, 1⟩ ⟨10, 0, 0, 2⟩
      [0, 0, 0, 0, 0, 0, 0, 0, 0, 0, 0, 0, 0, 0, 0, 0, 0, 0, 0, 0]
      (List.cons_ne_nil _ _)
    rw [hc]
    rfl

end NeLST
